import Mathlib

/-!
Verification of the Google-Scholar scraping pipeline of `leptos-scholar`
(`src/lib.rs`, `src/main.rs`).

The library queries a parsed HTML page through three fixed CSS selectors:
the summary table (`table#gsc_rsb_st`, value cells `tr > td:nth-child(2)`),
the profile-name element (`div#gsc_prf_in`), and the citation histogram
container (`div.gsc_md_hist_w > div.gsc_md_hist_b`, with year labels
`span.gsc_g_t` and count labels `a.gsc_g_a > span.gsc_g_al`).  Since the
selectors are compile-time constants and the extraction code observes the
document only through these queries, a parsed document is embedded as the
outcome of the three queries: the list of value-cell inner texts (when the
summary table matches), the inner text of the first name element (when it
matches), and the two label sequences of the first histogram container
(when it matches).  `scraper`'s tolerant HTML parser never fails, so every
HTTP response body yields such a view; the network boundary is modelled as
the outcome of the single GET request.
-/

instance {ε α : Type} [DecidableEq ε] [DecidableEq α] : DecidableEq (Except ε α)
  | .error a, .error b =>
    if h : a = b then isTrue (congrArg Except.error h)
    else isFalse (fun hc => h (Except.error.inj hc))
  | .error _, .ok _ => isFalse (fun hc => Except.noConfusion hc)
  | .ok _, .error _ => isFalse (fun hc => Except.noConfusion hc)
  | .ok a, .ok b =>
    if h : a = b then isTrue (congrArg Except.ok h)
    else isFalse (fun hc => h (Except.ok.inj hc))

/-- A parsed HTML document (`scraper::Html`), viewed through the three fixed
selector queries that `src/lib.rs` performs.  `summaryCells` is `some cs`
when `table#gsc_rsb_st` matches, with `cs` the `inner_html` of every
`tr > td:nth-child(2)` cell in document order; `nameElem` is the
`inner_html` of the first `div#gsc_prf_in` match; `histogram` holds the
`inner_html` sequences of the year labels and the citation-count labels
inside the first histogram container match. -/
structure Html where
  summaryCells : Option (List String)
  nameElem : Option String
  histogram : Option (List String × List String)
deriving DecidableEq, Repr

/-- The error enum `ScraperError` of `src/lib.rs`. -/
inductive ScraperError where
  | InvalidId
  | TableNotFound
  | NameNotFound
  | ParseError (s : String)
  | InsufficientData (n : Nat)
  | YearParseError (s : String)
  | CitationParseError (s : String)
deriving DecidableEq, Repr

/-- The `thiserror` display message of each `ScraperError` variant,
exactly as written in the `#[error(...)]` attributes of `src/lib.rs`. -/
def ScraperError.message : ScraperError → String
  | .InvalidId => "Website not found. Check the ID."
  | .TableNotFound => "Failed to find the citation table on the website"
  | .NameNotFound => "Failed to find the name on the website"
  | .ParseError s => "Failed to parse value: " ++ s
  | .InsufficientData n => "Insufficient data: expected 3 values, found " ++ toString n
  | .YearParseError s => "Failed to parse year: " ++ s
  | .CitationParseError s => "Failed to parse citation count: " ++ s

/-- The crate is compiled to wasm32 (a Leptos client app), where `usize`
is 32 bits wide. -/
def usizeMax : Nat := 2 ^ 32 - 1

/-- Rust `str::parse::<usize>` (`usize::from_str`): an optional leading
`+` sign followed by one or more ASCII decimal digits, failing on an
empty digit sequence, on any non-digit character, and on overflow past
`usize::MAX`.  A `-` sign is rejected for unsigned integers. -/
def parseUsize (s : String) : Option Nat :=
  let digits := match s.data with
    | '+' :: rest => rest
    | cs => cs
  if digits = [] then none
  else if digits.all Char.isDigit then
    let v := digits.foldl (fun a c => a * 10 + (c.toNat - 48)) 0
    if v ≤ usizeMax then some v else none
  else none

/-- The `collect::<Result<Vec<usize>, _>>` over the summary-table value
cells in `extract_author_info` (src/lib.rs lines 87-95): parse every
cell's `inner_html`, short-circuiting at the first failure with
`ParseError` carrying that cell's text. -/
def collectValues : List String → Except ScraperError (List Nat)
  | [] => .ok []
  | c :: rest =>
    match parseUsize c with
    | none => .error (.ParseError c)
    | some v =>
      match collectValues rest with
      | .error e => .error e
      | .ok vs => .ok (v :: vs)

/-- `extract_author_info` (src/lib.rs lines 77-110): locate the summary
table (`TableNotFound` if absent), parse every value cell, require at
least three parsed values (`InsufficientData` otherwise), locate the name
element (`NameNotFound` if absent), and return
`(name, values[0], values[1], values[2])`. -/
def extract_author_info (document : Html) : Except ScraperError (String × Nat × Nat × Nat) :=
  match document.summaryCells with
  | none => .error .TableNotFound
  | some cells =>
    match collectValues cells with
    | .error e => .error e
    | .ok values =>
      if values.length < 3 then
        .error (.InsufficientData values.length)
      else
        match document.nameElem with
        | none => .error .NameNotFound
        | some name =>
          .ok (name, values.getD 0 0, values.getD 1 0, values.getD 2 0)

/-- `BTreeMap<usize, usize>` modelled as an association list whose keys
are strictly increasing; `btreeInsert` is `BTreeMap::insert`, which
replaces the value when the key is already present. -/
def btreeInsert (k v : Nat) : List (Nat × Nat) → List (Nat × Nat)
  | [] => [(k, v)]
  | (k₀, v₀) :: rest =>
    if k < k₀ then (k, v) :: (k₀, v₀) :: rest
    else if k = k₀ then (k, v) :: rest
    else (k₀, v₀) :: btreeInsert k v rest

/-- The `collect::<Result<BTreeMap<usize, usize>>>` over the zipped
year/count label pairs in `extract_citations` (src/lib.rs lines 134-147):
parse each pair (first the year, `YearParseError` on failure, then the
count, `CitationParseError` on failure) and insert it into the map,
short-circuiting at the first failure. -/
def collectCitations : List (String × String) → List (Nat × Nat) → Except ScraperError (List (Nat × Nat))
  | [], acc => .ok acc
  | (y, c) :: rest, acc =>
    match parseUsize y with
    | none => .error (.YearParseError y)
    | some year =>
      match parseUsize c with
      | none => .error (.CitationParseError c)
      | some cit => collectCitations rest (btreeInsert year cit acc)

/-- `extract_citations` (src/lib.rs lines 121-148): locate the histogram
container (`TableNotFound` if absent, the same variant as for the summary
table), zip the year-label sequence with the count-label sequence
(truncating to the shorter length), and collect the parsed pairs into a
`BTreeMap`. -/
def extract_citations (document : Html) : Except ScraperError (List (Nat × Nat)) :=
  match document.histogram with
  | none => .error .TableNotFound
  | some (years, citations) => collectCitations (years.zip citations) []

/-- The `AuthorInfo` struct of `src/lib.rs`, the scraped record.  The
`BTreeMap` field is its sorted association-list snapshot; serde renames
it to `years` on serialization. -/
structure AuthorInfo where
  name : String
  total : Nat
  h_index : Nat
  i10_index : Nat
  yearly_citations : List (Nat × Nat)
deriving DecidableEq, Repr

/-- `serde_yaml::to_string` on an `AuthorInfo` value: plain-scalar YAML
with the struct fields in declaration order (`name`, `total`, `h_index`,
`i10_index`, `years`) and the map entries in the `BTreeMap`'s key order.
For this field shape (string and unsigned-integer scalars, integer map
keys) serialization cannot fail, so it is a total function. -/
def serialize_author_info (a : AuthorInfo) : String :=
  "name: " ++ a.name ++ "\n" ++
  "total: " ++ toString a.total ++ "\n" ++
  "h_index: " ++ toString a.h_index ++ "\n" ++
  "i10_index: " ++ toString a.i10_index ++ "\n" ++
  "years:\n" ++
  String.join (a.yearly_citations.map
    (fun p => "  " ++ toString p.1 ++ ": " ++ toString p.2 ++ "\n"))

/-- The error type at the `anyhow::Result` boundary of `fetch_info`:
either a `ScraperError` or a transport failure raised by `reqwest`
(connection error on `get`, or a body-read error on `text`). -/
inductive AnyError where
  | scraper (e : ScraperError)
  | transport (msg : String)
deriving DecidableEq, Repr

/-- `anyhow::Error::to_string`: the display message of the wrapped
error. -/
def AnyError.message : AnyError → String
  | .scraper e => e.message
  | .transport msg => msg

/-- The outcome of the single `reqwest::get` round trip of `fetch_page`:
either a transport failure, or an HTTP response with a status code and a
parsed body.  `scraper`'s `Html::parse_document` is tolerant and never
fails, so the body is carried directly as its parsed selector-level
view. -/
inductive HttpOutcome where
  | failed (msg : String)
  | response (status : Nat) (document : Html)
deriving DecidableEq, Repr

/-- `fetch_page` (src/lib.rs lines 52-66), past the network call: a
transport failure propagates via `?`; a response is matched on its
status code, `StatusCode::OK` (that is, exactly 200) yielding the parsed
document and every other status yielding `ScraperError::InvalidId`. -/
def fetch_page (outcome : HttpOutcome) : Except AnyError Html :=
  match outcome with
  | .failed msg => .error (.transport msg)
  | .response status document =>
    if status = 200 then .ok document else .error (.scraper .InvalidId)

/-- `fetch_info` (src/lib.rs lines 154-170): fetch the page, extract the
summary tuple and the yearly citations (short-circuiting on the first
error), assemble the `AuthorInfo` record, and serialize it to YAML. -/
def fetch_info (outcome : HttpOutcome) : Except AnyError String :=
  match fetch_page outcome with
  | .error e => .error e
  | .ok document =>
    match extract_author_info document with
    | .error e => .error (.scraper e)
    | .ok (name, total, h, i10) =>
      match extract_citations document with
      | .error e => .error (.scraper e)
      | .ok yearly =>
        .ok (serialize_author_info ⟨name, total, h, i10, yearly⟩)

/-- The resource wiring of `Render` (src/main.rs lines 13-17):
`fetch_info(author_id).await.unwrap_or_else(|e| e.to_string())` — the
serialized record on success, the error's display text on failure. -/
def render_result (outcome : HttpOutcome) : String :=
  match fetch_info outcome with
  | .ok s => s
  | .error e => e.message

/-- Left fold of `BTreeMap::insert` over an already-parsed pair list:
the map that `collectCitations` builds when every label parses. -/
def foldInsert : List (Nat × Nat) → List (Nat × Nat) → List (Nat × Nat)
  | acc, [] => acc
  | acc, p :: rest => foldInsert (btreeInsert p.1 p.2 acc) rest

/-- Both labels of a histogram pair parse, to the given year and count. -/
def pairParses (sc : String × String) (nc : Nat × Nat) : Prop :=
  parseUsize sc.1 = some nc.1 ∧ parseUsize sc.2 = some nc.2

/-- `reqwest::StatusCode::is_success`: the 2xx range. -/
def isSuccessStatus (status : Nat) : Bool :=
  200 ≤ status && status < 300

/-- All cells parse: the collected vector is exactly the list of parsed
values. -/
theorem collectValues_ok {cells : List String} {values : List Nat}
    (h : List.Forall₂ (fun c v => parseUsize c = some v) cells values) :
    collectValues cells = .ok values := by
  induction h with
  | nil => rfl
  | cons hp _ ih => simp [collectValues, hp, ih]

/-- The first malformed cell aborts the collection with `ParseError`
carrying its text, whatever follows it. -/
theorem collectValues_error {good : List String} {values : List Nat}
    {bad : String} (rest : List String)
    (h : List.Forall₂ (fun c v => parseUsize c = some v) good values)
    (hbad : parseUsize bad = none) :
    collectValues (good ++ bad :: rest) = .error (.ParseError bad) := by
  induction h with
  | nil => simp [collectValues, hbad]
  | cons hp _ ih => simp [collectValues, hp, ih]

/-- C1: a document whose summary table is present with every value cell
parsing as a non-negative base-10 integer, at least three of them, and
whose name element is present, extracts successfully to the first three
parsed values positionally as (total, h-index, i10-index) together with
the name element's inner text verbatim. -/
theorem extract_author_info_success
    (d : Html) (cells : List String) (v₀ v₁ v₂ : Nat) (vs : List Nat) (nm : String)
    (hcells : d.summaryCells = some cells)
    (hparse : List.Forall₂ (fun c v => parseUsize c = some v) cells (v₀ :: v₁ :: v₂ :: vs))
    (hname : d.nameElem = some nm) :
    extract_author_info d = .ok (nm, v₀, v₁, v₂) := by
  simp [extract_author_info, hcells, collectValues_ok hparse, hname]

/-- C1 witness: the spec's end-to-end example summary. -/
theorem extract_author_info_success_witness :
    extract_author_info ⟨some ["120", "8", "5"], some "Jane Doe", none⟩ =
      .ok ("Jane Doe", 120, 8, 5) :=
  extract_author_info_success _ ["120", "8", "5"] 120 8 5 [] "Jane Doe" rfl
    (.cons (by decide) (.cons (by decide) (.cons (by decide) .nil))) rfl

/-- C5: a present summary table whose cells all parse but number fewer
than three fails with `InsufficientData` carrying the actual cell
count. -/
theorem extract_author_info_insufficient
    (d : Html) (cells : List String) (values : List Nat)
    (hcells : d.summaryCells = some cells)
    (hparse : List.Forall₂ (fun c v => parseUsize c = some v) cells values)
    (hlen : values.length < 3) :
    extract_author_info d = .error (.InsufficientData cells.length) := by
  have hl : cells.length = values.length := hparse.length_eq
  simp [extract_author_info, hcells, collectValues_ok hparse, hlen, hl]

/-- C5 witness: two numeric cells yield `InsufficientData 2`. -/
theorem extract_author_info_insufficient_witness :
    extract_author_info ⟨some ["10", "20"], some "A", none⟩ =
      .error (.InsufficientData 2) :=
  extract_author_info_insufficient _ ["10", "20"] [10, 20] rfl
    (.cons (by decide) (.cons (by decide) .nil)) (by decide)

/-- C9: every value cell is parsed, not only the first three — a
malformed cell after three well-formed ones still fails the whole
extraction with `ParseError` carrying the first malformed cell's
text. -/
theorem extract_author_info_parses_all_cells
    (d : Html) (good : List String) (values : List Nat) (bad : String) (rest : List String)
    (hcells : d.summaryCells = some (good ++ bad :: rest))
    (hgood : List.Forall₂ (fun c v => parseUsize c = some v) good values)
    (_hthree : 3 ≤ good.length)
    (hbad : parseUsize bad = none) :
    extract_author_info d = .error (.ParseError bad) := by
  simp [extract_author_info, hcells, collectValues_error rest hgood hbad]

/-- C9 witness: three well-formed cells followed by a malformed one. -/
theorem extract_author_info_parses_all_cells_witness :
    extract_author_info ⟨some ["1", "2", "3", "x"], some "A", none⟩ =
      .error (.ParseError "x") :=
  extract_author_info_parses_all_cells _ ["1", "2", "3"] [1, 2, 3] "x" [] rfl
    (.cons (by decide) (.cons (by decide) (.cons (by decide) .nil)))
    (by decide) (by decide)

/-- C4 counterexample: a document with the summary table present (zero
cells) and the name element absent fails with `InsufficientData 0`, not
`NameNotFound` — the cell-count check runs before the name lookup. -/
theorem name_absent_after_short_table_cex :
    (Html.mk (some []) none none).summaryCells = some [] ∧
    (Html.mk (some []) none none).nameElem = none ∧
    extract_author_info (Html.mk (some []) none none) = .error (.InsufficientData 0) ∧
    extract_author_info (Html.mk (some []) none none) ≠ .error .NameNotFound := by
  refine ⟨rfl, rfl, rfl, ?_⟩
  decide

/-- C4 (amended): a document missing the summary table fails with
`TableNotFound`; a document whose summary table is present with at least
three parsing cells but whose name element is absent fails with
`NameNotFound`. -/
theorem extract_author_info_absence_errors (d : Html) :
    (d.summaryCells = none → extract_author_info d = .error .TableNotFound) ∧
    (∀ cells values, d.summaryCells = some cells →
      List.Forall₂ (fun c v => parseUsize c = some v) cells values →
      3 ≤ values.length → d.nameElem = none →
      extract_author_info d = .error .NameNotFound) := by
  constructor
  · intro h
    simp [extract_author_info, h]
  · intro cells values hc hp hlen hn
    simp [extract_author_info, hc, collectValues_ok hp, hn, Nat.not_lt.2 hlen]

/-- C4 witness: both absence errors at concrete documents. -/
theorem extract_author_info_absence_errors_witness :
    extract_author_info ⟨none, none, none⟩ = .error .TableNotFound ∧
    extract_author_info ⟨some ["1", "2", "3"], none, none⟩ = .error .NameNotFound := by
  constructor
  · exact (extract_author_info_absence_errors ⟨none, none, none⟩).1 rfl
  · exact (extract_author_info_absence_errors ⟨some ["1", "2", "3"], none, none⟩).2
      ["1", "2", "3"] [1, 2, 3] rfl
      (.cons (by decide) (.cons (by decide) (.cons (by decide) .nil)))
      (by decide) rfl

example : parseUsize "120" = some 120 := by decide
example : parseUsize "+7" = some 7 := by decide
example : parseUsize "abc" = none := by decide
example : parseUsize "" = none := by decide
example : parseUsize "-5" = none := by decide
example :
    extract_author_info ⟨some ["120", "8", "5"], some "Jane Doe", none⟩ =
      .ok ("Jane Doe", 120, 8, 5) := by decide
example :
    extract_citations ⟨none, none, some (["2020", "2021"], ["30", "40"])⟩ =
      .ok [(2020, 30), (2021, 40)] := by decide
example :
    extract_citations ⟨none, none, some (["2020", "2020"], ["1", "2"])⟩ =
      .ok [(2020, 2)] := by decide

/-- Looking up the freshly inserted key finds the fresh value. -/
theorem btreeInsert_lookup_self (k v : Nat) (l : List (Nat × Nat)) :
    (btreeInsert k v l).lookup k = some v := by
  induction l with
  | nil => simp [btreeInsert, List.lookup]
  | cons p rest ih =>
    obtain ⟨k₀, v₀⟩ := p
    by_cases h1 : k < k₀
    · simp [btreeInsert, h1, List.lookup]
    · by_cases h2 : k = k₀
      · simp [btreeInsert, h1, h2, List.lookup]
      · have hne : (k == k₀) = false := by simp [h2]
        simp [btreeInsert, h1, h2, List.lookup, hne, ih]

/-- Insertion leaves every other key's binding unchanged. -/
theorem btreeInsert_lookup_ne (k v q : Nat) (l : List (Nat × Nat)) (h : q ≠ k) :
    (btreeInsert k v l).lookup q = l.lookup q := by
  have hqk : (q == k) = false := by simp [h]
  induction l with
  | nil => simp [btreeInsert, List.lookup, hqk]
  | cons p rest ih =>
    obtain ⟨k₀, v₀⟩ := p
    by_cases h1 : k < k₀
    · simp [btreeInsert, h1, List.lookup, hqk]
    · by_cases h2 : k = k₀
      · subst h2
        simp [btreeInsert, h1, List.lookup, hqk]
      · simp [btreeInsert, h1, h2, List.lookup, ih]

/-- Every entry of the inserted map is the fresh pair or an old entry. -/
theorem mem_btreeInsert {q : Nat × Nat} (k v : Nat) (l : List (Nat × Nat))
    (h : q ∈ btreeInsert k v l) : q = (k, v) ∨ q ∈ l := by
  induction l with
  | nil => simpa [btreeInsert] using h
  | cons p rest ih =>
    obtain ⟨k₀, v₀⟩ := p
    by_cases h1 : k < k₀
    · simp only [btreeInsert, if_pos h1] at h
      rcases List.mem_cons.mp h with h | h
      · exact .inl h
      · exact .inr h
    · by_cases h2 : k = k₀
      · simp only [btreeInsert, if_neg h1, if_pos h2] at h
        rcases List.mem_cons.mp h with h | h
        · exact .inl h
        · exact .inr (List.mem_cons_of_mem _ h)
      · simp only [btreeInsert, if_neg h1, if_neg h2] at h
        rcases List.mem_cons.mp h with h | h
        · exact .inr (by simp [h])
        · rcases ih h with h | h
          · exact .inl h
          · exact .inr (List.mem_cons_of_mem _ h)

/-- Insertion preserves strict ascending key order. -/
theorem btreeInsert_sorted (k v : Nat) {l : List (Nat × Nat)}
    (h : l.Pairwise (fun p q => p.1 < q.1)) :
    (btreeInsert k v l).Pairwise (fun p q => p.1 < q.1) := by
  induction l with
  | nil => simp [btreeInsert]
  | cons p rest ih =>
    obtain ⟨k₀, v₀⟩ := p
    rcases List.pairwise_cons.mp h with ⟨hhead, htail⟩
    by_cases h1 : k < k₀
    · simp only [btreeInsert, if_pos h1]
      refine List.pairwise_cons.mpr ⟨?_, h⟩
      intro q hq
      rcases List.mem_cons.mp hq with hq | hq
      · simpa [hq] using h1
      · exact h1.trans (hhead q hq)
    · by_cases h2 : k = k₀
      · subst h2
        simp only [btreeInsert, if_neg h1, if_pos rfl]
        exact List.pairwise_cons.mpr ⟨hhead, htail⟩
      · have hk₀ : k₀ < k := by omega
        simp only [btreeInsert, if_neg h1, if_neg h2]
        refine List.pairwise_cons.mpr ⟨?_, ih htail⟩
        intro q hq
        rcases mem_btreeInsert k v rest hq with hq | hq
        · simpa [hq] using hk₀
        · exact hhead q hq

/-- The key set after insertion is the old key set plus the new key. -/
theorem btreeInsert_keys_toFinset (k v : Nat) (l : List (Nat × Nat)) :
    ((btreeInsert k v l).map Prod.fst).toFinset =
      insert k (l.map Prod.fst).toFinset := by
  induction l with
  | nil => simp [btreeInsert]
  | cons p rest ih =>
    obtain ⟨k₀, v₀⟩ := p
    by_cases h1 : k < k₀
    · simp [btreeInsert, h1]
    · by_cases h2 : k = k₀
      · subst h2
        simp [btreeInsert, h1]
      · simp only [btreeInsert, if_neg h1, if_neg h2, List.map_cons,
          List.toFinset_cons, ih]
        rw [Finset.Insert.comm]

/-- Collecting fully parsed pairs folds them into the map. -/
theorem collectCitations_ok {pairs : List (String × String)}
    {parsed : List (Nat × Nat)}
    (h : List.Forall₂ pairParses pairs parsed) (acc : List (Nat × Nat)) :
    collectCitations pairs acc = .ok (foldInsert acc parsed) := by
  induction h generalizing acc with
  | nil => rfl
  | @cons sc nc pairs parsed hp _ ih =>
    obtain ⟨y, c⟩ := sc
    obtain ⟨yr, ct⟩ := nc
    simp only [collectCitations, hp.1, hp.2, foldInsert]
    exact ih _

/-- Collection succeeds whenever every pair's labels parse. -/
theorem collectCitations_isOk (pairs : List (String × String))
    (acc : List (Nat × Nat))
    (h : ∀ p ∈ pairs, (parseUsize p.1).isSome ∧ (parseUsize p.2).isSome) :
    ∃ m, collectCitations pairs acc = .ok m := by
  induction pairs generalizing acc with
  | nil => exact ⟨acc, rfl⟩
  | cons p rest ih =>
    obtain ⟨y, c⟩ := p
    obtain ⟨hy, hc⟩ := h (y, c) (List.mem_cons_self _ _)
    obtain ⟨yr, hyr⟩ := Option.isSome_iff_exists.mp hy
    obtain ⟨ct, hct⟩ := Option.isSome_iff_exists.mp hc
    obtain ⟨m, hm⟩ := ih (btreeInsert yr ct acc) (fun q hq => h q (List.mem_cons_of_mem _ hq))
    exact ⟨m, by simp [collectCitations, hyr, hct, hm]⟩

/-- Folding inserts preserves strict ascending key order. -/
theorem foldInsert_sorted (ps : List (Nat × Nat)) (acc : List (Nat × Nat))
    (h : acc.Pairwise (fun p q => p.1 < q.1)) :
    (foldInsert acc ps).Pairwise (fun p q => p.1 < q.1) := by
  induction ps generalizing acc with
  | nil => exact h
  | cons p rest ih => exact ih _ (btreeInsert_sorted p.1 p.2 h)

/-- The key set of the fold is the accumulator's keys joined with the
processed pairs' keys. -/
theorem foldInsert_keys (ps : List (Nat × Nat)) (acc : List (Nat × Nat)) :
    ((foldInsert acc ps).map Prod.fst).toFinset =
      (acc.map Prod.fst).toFinset ∪ (ps.map Prod.fst).toFinset := by
  induction ps generalizing acc with
  | nil => simp [foldInsert]
  | cons p rest ih =>
    show ((foldInsert (btreeInsert p.1 p.2 acc) rest).map Prod.fst).toFinset = _
    rw [ih, btreeInsert_keys_toFinset]
    simp [Finset.insert_union, Finset.union_insert]

/-- Association-list lookup over an append scans the left list first. -/
theorem lookup_append (k : Nat) (l₁ l₂ : List (Nat × Nat)) :
    (l₁ ++ l₂).lookup k =
      (match l₁.lookup k with
       | some v => some v
       | none => l₂.lookup k) := by
  induction l₁ with
  | nil => rfl
  | cons p l₁ ih =>
    obtain ⟨a, b⟩ := p
    by_cases h : k = a
    · simp [List.lookup, h]
    · have hka : (k == a) = false := by simp [h]
      simp [List.lookup, hka, ih]

/-- Looking up a key in the fold finds the value of the key's last
processed pair, falling back to the accumulator. -/
theorem foldInsert_lookup (ps : List (Nat × Nat)) (acc : List (Nat × Nat)) (k : Nat) :
    (foldInsert acc ps).lookup k =
      (match ps.reverse.lookup k with
       | some v => some v
       | none => acc.lookup k) := by
  induction ps generalizing acc with
  | nil => rfl
  | cons p rest ih =>
    show (foldInsert (btreeInsert p.1 p.2 acc) rest).lookup k = _
    rw [ih, List.reverse_cons, lookup_append]
    cases hrv : rest.reverse.lookup k with
    | some v => rfl
    | none =>
      by_cases hk : k = p.1
      · subst hk
        simp [List.lookup, btreeInsert_lookup_self]
      · have hkp : (k == p.1) = false := by simp [hk]
        simp [List.lookup, hkp, btreeInsert_lookup_ne _ _ _ _ hk]

/-- A strictly key-sorted map has as many entries as distinct keys. -/
theorem length_of_sorted_keys {m : List (Nat × Nat)}
    (h : m.Pairwise (fun p q => p.1 < q.1)) :
    m.length = (m.map Prod.fst).toFinset.card := by
  have hnd : (m.map Prod.fst).Nodup :=
    (List.pairwise_map.mpr h).imp (fun hlt => Nat.ne_of_lt hlt)
  rw [List.toFinset_card_of_nodup hnd, List.length_map]

/-- A list with a repeated element has strictly fewer distinct elements
than elements. -/
theorem toFinset_card_lt_of_not_nodup {l : List Nat} (h : ¬ l.Nodup) :
    l.toFinset.card < l.length := by
  induction l with
  | nil => exact absurd List.nodup_nil h
  | cons a l ih =>
    by_cases ha : a ∈ l
    · calc (a :: l).toFinset.card = l.toFinset.card := by
            simp [List.toFinset_cons, Finset.insert_eq_self.mpr (List.mem_toFinset.mpr ha)]
        _ ≤ l.length := List.toFinset_card_le l
        _ < (a :: l).length := by simp
    · have hl : ¬ l.Nodup := fun hnd => h (List.nodup_cons.mpr ⟨ha, hnd⟩)
      calc (a :: l).toFinset.card ≤ l.toFinset.card + 1 := by
            rw [List.toFinset_cons]
            exact Finset.card_insert_le _ _
        _ < l.length + 1 := Nat.succ_lt_succ (ih hl)
        _ = (a :: l).length := by simp

/-- C6: a present histogram container whose zipped label pairs all parse
extracts successfully, and the pairs processed are exactly the zip of the
two sequences — `min (len years) (len counts)` of them, silently
truncating the longer sequence. -/
theorem extract_citations_truncates
    (d : Html) (years cits : List String)
    (hh : d.histogram = some (years, cits))
    (hp : ∀ p ∈ years.zip cits, (parseUsize p.1).isSome ∧ (parseUsize p.2).isSome) :
    (∃ m, extract_citations d = .ok m) ∧
    (years.zip cits).length = min years.length cits.length := by
  constructor
  · simp only [extract_citations, hh]
    exact collectCitations_isOk _ _ hp
  · exact List.length_zip years cits

/-- C6 witness: three years against two counts — no error, two pairs. -/
theorem extract_citations_truncates_witness :
    (∃ m, extract_citations ⟨none, none, some (["2020", "2021", "2022"], ["30", "40"])⟩ = .ok m) ∧
    ((["2020", "2021", "2022"] : List String).zip (["30", "40"] : List String)).length =
      min (["2020", "2021", "2022"] : List String).length (["30", "40"] : List String).length :=
  extract_citations_truncates _ ["2020", "2021", "2022"] ["30", "40"] rfl (by decide)

/-- C3 counterexample: equal-length label sequences with a duplicated
year give one map entry for two pairs, so the entry count is not the
sequence length. -/
theorem extract_citations_entry_count_cex :
    extract_citations (Html.mk none none (some (["2020", "2020"], ["1", "2"]))) =
      .ok [(2020, 2)] ∧
    ([(2020, 2)] : List (Nat × Nat)).length ≠ (["2020", "2020"] : List String).length := by
  exact ⟨by decide, by decide⟩

/-- C3 (amended): a present histogram container with equal-length label
sequences, every label parsing and the parsed years pairwise distinct,
extracts to a map with exactly one entry per pair, keys strictly
ascending. -/
theorem extract_citations_success
    (d : Html) (years cits : List String) (parsed : List (Nat × Nat))
    (hh : d.histogram = some (years, cits))
    (hlen : years.length = cits.length)
    (hp : List.Forall₂ pairParses (years.zip cits) parsed)
    (hnd : (parsed.map Prod.fst).Nodup) :
    ∃ m, extract_citations d = .ok m ∧
      m.length = years.length ∧
      m.Pairwise (fun p q => p.1 < q.1) := by
  refine ⟨foldInsert [] parsed, ?_, ?_, ?_⟩
  · simp only [extract_citations, hh]
    exact collectCitations_ok hp []
  · have hs := foldInsert_sorted parsed [] (List.Pairwise.nil)
    rw [length_of_sorted_keys hs, foldInsert_keys]
    simp only [List.map_nil, List.toFinset_nil, Finset.empty_union]
    rw [List.toFinset_card_of_nodup hnd, List.length_map, ← hp.length_eq,
      List.length_zip, hlen, Nat.min_self]
  · exact foldInsert_sorted parsed [] (List.Pairwise.nil)

/-- C3 witness: the spec's two-year histogram example. -/
theorem extract_citations_success_witness :
    ∃ m, extract_citations ⟨none, none, some (["2020", "2021"], ["30", "40"])⟩ = .ok m ∧
      m.length = (["2020", "2021"] : List String).length ∧
      m.Pairwise (fun p q => p.1 < q.1) :=
  extract_citations_success _ ["2020", "2021"] ["30", "40"] [(2020, 30), (2021, 40)]
    rfl rfl (.cons (by exact ⟨by decide, by decide⟩) (.cons (by exact ⟨by decide, by decide⟩) .nil))
    (by decide)

/-- C10: a present histogram container whose labels all parse but whose
parsed years repeat extracts without error to a map with unique keys,
each repeated year bound to the count of its last pair in page order, and
with strictly fewer entries than pairs processed. -/
theorem extract_citations_dup_last_wins
    (d : Html) (years cits : List String) (parsed : List (Nat × Nat))
    (hh : d.histogram = some (years, cits))
    (hp : List.Forall₂ pairParses (years.zip cits) parsed)
    (hdup : ¬ (parsed.map Prod.fst).Nodup) :
    ∃ m, extract_citations d = .ok m ∧
      (m.map Prod.fst).Nodup ∧
      (∀ k, m.lookup k = parsed.reverse.lookup k) ∧
      m.length < parsed.length := by
  have hs := foldInsert_sorted parsed [] (List.Pairwise.nil)
  refine ⟨foldInsert [] parsed, ?_, ?_, ?_, ?_⟩
  · simp only [extract_citations, hh]
    exact collectCitations_ok hp []
  · exact (List.pairwise_map.mpr hs).imp (fun hlt => Nat.ne_of_lt hlt)
  · intro k
    rw [foldInsert_lookup]
    cases parsed.reverse.lookup k with
    | some v => rfl
    | none => rfl
  · rw [length_of_sorted_keys hs, foldInsert_keys]
    simp only [List.map_nil, List.toFinset_nil, Finset.empty_union]
    calc (parsed.map Prod.fst).toFinset.card
        < (parsed.map Prod.fst).length := toFinset_card_lt_of_not_nodup hdup
      _ = parsed.length := List.length_map _ _

/-- C10 witness: the year 2020 appears twice; the map keeps the second
count and has one entry for two pairs. -/
theorem extract_citations_dup_last_wins_witness :
    ∃ m, extract_citations ⟨none, none, some (["2020", "2020"], ["1", "2"])⟩ = .ok m ∧
      (m.map Prod.fst).Nodup ∧
      (∀ k, m.lookup k = ([(2020, 1), (2020, 2)] : List (Nat × Nat)).reverse.lookup k) ∧
      m.length < ([(2020, 1), (2020, 2)] : List (Nat × Nat)).length :=
  extract_citations_dup_last_wins _ ["2020", "2020"] ["1", "2"] [(2020, 1), (2020, 2)]
    rfl (.cons (by exact ⟨by decide, by decide⟩) (.cons (by exact ⟨by decide, by decide⟩) .nil))
    (by decide)

/-- C7: serialization is deterministic with stable key order — any two
records with identical field contents serialize to character-for-character
identical text, with no dependence on prior invocations (the serializer
is a pure function of the record). -/
theorem serialize_author_info_deterministic (r₁ r₂ : AuthorInfo)
    (hn : r₁.name = r₂.name) (ht : r₁.total = r₂.total)
    (hh : r₁.h_index = r₂.h_index) (hi : r₁.i10_index = r₂.i10_index)
    (hy : r₁.yearly_citations = r₂.yearly_citations) :
    serialize_author_info r₁ = serialize_author_info r₂ := by
  simp [serialize_author_info, hn, ht, hh, hi, hy]

/-- C7 witness: two independently constructed records with the spec's
example contents. -/
theorem serialize_author_info_deterministic_witness :
    serialize_author_info ⟨"Jane Doe", 120, 8, 5, [(2020, 30), (2021, 40)]⟩ =
      serialize_author_info ⟨"Jane Doe", 120, 8, 5, [(2020, 30), (2021, 40)]⟩ :=
  serialize_author_info_deterministic _ _ rfl rfl rfl rfl rfl

/-- C8 counterexample: 201 Created is a success (2xx) status, yet
`fetch_page` rejects it with `InvalidId` — the match accepts exactly
`StatusCode::OK`. -/
theorem fetch_page_non_ok_success_status_cex :
    isSuccessStatus 201 = true ∧
    fetch_page (.response 201 (Html.mk none none none)) = .error (.scraper .InvalidId) := by
  exact ⟨by decide, by decide⟩

/-- C8 (amended): past the network round trip, `fetch_page` fails with
`InvalidId` exactly on a response status other than 200 OK; on status 200
it returns the parsed document (the tolerant HTML parse itself never
fails, so the document view is always available). -/
theorem fetch_page_status (status : Nat) (document : Html) :
    (status = 200 → fetch_page (.response status document) = .ok document) ∧
    (status ≠ 200 → fetch_page (.response status document) = .error (.scraper .InvalidId)) := by
  constructor
  · intro h
    simp [fetch_page, h]
  · intro h
    simp [fetch_page, h]

/-- C8 witness: status 200 succeeds, status 404 fails with `InvalidId`. -/
theorem fetch_page_status_witness :
    fetch_page (.response 200 (Html.mk none none none)) = .ok (Html.mk none none none) ∧
    fetch_page (.response 404 (Html.mk none none none)) = .error (.scraper .InvalidId) :=
  ⟨(fetch_page_status 200 (Html.mk none none none)).1 rfl,
   (fetch_page_status 404 (Html.mk none none none)).2 (by decide)⟩

/-- C2: the caller-facing boundary never raises — for every outcome of
the network round trip, the rendered resource value is the serialized
record on success and the error's human-readable display text on every
failure path, so the caller always receives text. -/
theorem render_result_text (outcome : HttpOutcome) :
    (∀ e, fetch_info outcome = .error e → render_result outcome = e.message) ∧
    (∀ s, fetch_info outcome = .ok s → render_result outcome = s) := by
  constructor
  · intro e he
    simp [render_result, he]
  · intro s hs
    simp [render_result, hs]

/-- C2 witness: a transport failure renders as its message; a well-formed
response renders as the serialized record. -/
theorem render_result_text_witness :
    render_result (.failed "connection refused") = "connection refused" ∧
    render_result (.response 404 (Html.mk none none none)) =
      "Website not found. Check the ID." :=
  ⟨(render_result_text (.failed "connection refused")).1
      (.transport "connection refused") rfl,
   (render_result_text (.response 404 (Html.mk none none none))).1
      (.scraper .InvalidId) rfl⟩
